import Mathlib

/-!
Shallow embedding of `nagios-lcd.py`: the display synchronization engine
(`NagiosLCD.display_problems`), the problem-source filtering (`Fetcher._skip`,
`Fetcher.parse`) and the reattach loop (`wait_for_lcd_attach`).

Device I/O is modelled as a trace of emitted commands; a Python exception is
modelled as `Option.none` propagating out of the function.
-/

/-- Modelled from the spec: text/background colours used by the device
render primitives (pylcdsysinfo `TextColours` / `BackgroundColours`, a
collaborator outside `src/`). -/
inductive Colour
  | RED | YELLOW | PURPLE | GREEN | BLACK | LIGHT_GREY
deriving DecidableEq, Repr

/-- Modelled from the spec: text alignment constants of the device driver
(pylcdsysinfo `TextAlignment`, outside `src/`). -/
inductive TextAlignment
  | LEFT | CENTRE
deriving DecidableEq, Repr

/-- One device render primitive, as consumed by the hardware driver:
icon-slot write, line text write, line-mask clear. -/
inductive Cmd
  | display_icon (pos : Nat) (slot : Nat)
  | display_text (line : Nat) (text : String) (pad : Bool) (align : TextAlignment) (colour : Colour)
  | clear_lines (mask : Nat) (colour : Colour)
deriving DecidableEq, Repr

/-- Class `Problem` from nagios-lcd.py: a state name and a description.
Python `__eq__` compares both fields structurally, which is the derived
`DecidableEq`. -/
structure Problem where
  state : String
  descr : String
deriving DecidableEq, Repr

/-- Class `State` from nagios-lcd.py: the display style of a state name
(icon flash slot and text colour). -/
structure DState where
  image : Nat
  colour : Colour
deriving DecidableEq, Repr

/-- Table `NagiosLCD.states`, the ordered state table.  Python builds an
`OrderedDict` by the chained assignments of lines 61-65, giving insertion
order DOWN, CRITICAL, WARNING, UNREACHABLE, UNKNOWN, UP, OK; the icon slots
come from `NagiosLCD.images` (UP=10, DOWN=11, WARNING=12, UNKNOWN=13). -/
def states : List (String × DState) :=
  [("DOWN", ⟨11, Colour.RED⟩), ("CRITICAL", ⟨11, Colour.RED⟩),
   ("WARNING", ⟨12, Colour.YELLOW⟩),
   ("UNREACHABLE", ⟨13, Colour.PURPLE⟩), ("UNKNOWN", ⟨13, Colour.PURPLE⟩),
   ("UP", ⟨10, Colour.GREEN⟩), ("OK", ⟨10, Colour.GREEN⟩)]

/-- The key set of `NagiosLCD.states`, in insertion order. -/
def stateNames : List String := states.map Prod.fst

/-- Python dict lookup `self.states[name]`, as an `Option` (a missing key
would raise `KeyError`). -/
def statesLookup (name : String) : Option DState :=
  (states.find? (fun st => st.1 = name)).map Prod.snd

/-- Modelled from the spec: `NagiosLCD.lines`, the fixed 6-element table of
pylcdsysinfo `TextLines` bit-mask constants (the driver constants are outside
`src/`; the spec describes clear commands as line bit-masks). -/
def lcdLines : List Nat := [1, 2, 4, 8, 16, 32]

/-- Modelled from the spec: pylcdsysinfo `TextLines.ALL`, the mask of all six
lines. -/
def allLinesMask : Nat := 63

/-- Modelled from the spec: the flash slot of the splash image
(`images['SPLASH']`, an `Image` at `large_image_indexes[0]`; the driver's
index table is outside `src/` and its exact value is irrelevant here). -/
def splashSlot : Nat := 0

/-- Method `NagiosLCD.display_splash`: clear all lines light grey, show the splash
icon, write centred text on line 5. -/
def display_splash (text : String) (colour : Colour) : List Cmd :=
  [Cmd.clear_lines allLinesMask Colour.LIGHT_GREY,
   Cmd.display_icon 0 splashSlot,
   Cmd.display_text 5 text false TextAlignment.CENTRE colour]

/-- Method `NagiosLCD.display_all_up`: the "ALL UP" splash (it also resets
`current_problems`, handled at the caller in `display_problems`). -/
def display_all_up : List Cmd :=
  display_splash "ALL UP" Colour.GREEN

/-- Method `NagiosLCD.display_problem`: icon at `line*8` and text on `line+1` with
the state's style; `none` models the `KeyError` a state outside the table
would raise. -/
def display_problem (line : Nat) (p : Problem) : Option (List Cmd) :=
  (statesLookup p.state).map fun st =>
    [Cmd.display_icon (line * 8) st.image,
     Cmd.display_text (line + 1) p.descr true TextAlignment.LEFT st.colour]

/-- The mutable state of `NagiosLCD` carried between cycles:
`current_problems` (the RenderState) and the private `__refresh` flag set by
`attach`. -/
structure Sync where
  current_problems : List Problem
  refresh : Bool
deriving DecidableEq, Repr

/-- The state right after `NagiosLCD.attach()`: `reset_problems()` empties
`current_problems` and `__refresh` is set to `True`. -/
def attachSync : Sync := ⟨[], true⟩

/-- The sorting loop of `display_problems` (lines 129-135): for each entry of
`states` in insertion order, append the input problems having exactly that
state name, preserving their source order. -/
def sortProblems (problems : List Problem) : List Problem :=
  states.flatMap fun st => problems.filter fun p => decide (p.state = st.1)

/-- The redraw loop of `display_problems` (lines 141-146): walk the sorted
problems with their line index; a problem equal to the previously rendered
one at the same index is skipped, any other is rendered. -/
def renderLoop (cur : List Problem) : Nat → List Problem → Option (List Cmd)
  | _, [] => some []
  | i, p :: rest =>
    match renderLoop cur (i + 1) rest with
    | none => none
    | some tail =>
      if cur[i]? = some p then
        some tail
      else
        match display_problem i p with
        | none => none
        | some c => some (c ++ tail)

/-- The clear-mask accumulation of `display_problems` (lines 149-151):
`clear_lines |= self.lines[i]` for `i` in `range(len(new), len(cur))`;
`none` models the `IndexError` of `self.lines[i]` when `i ≥ 6`. -/
def clearMask (newLen curLen : Nat) : Option Nat :=
  (List.range' newLen (curLen - newLen)).foldlM
    (fun acc i => lcdLines[i]?.map (fun l => acc ||| l)) 0

/-- Method `NagiosLCD.display_problems`: the reconcile operation.  Returns the new
`Sync` state and the trace of device commands, or `none` when the Python code
would raise. -/
def display_problems (s : Sync) (problems : List Problem) : Option (Sync × List Cmd) :=
  if problems.length = 0 then
    if 0 < s.current_problems.length ∨ s.refresh = true then
      some (⟨[], false⟩, display_all_up)
    else
      some (s, [])
  else
    match renderLoop s.current_problems 0 (sortProblems problems),
          clearMask (sortProblems problems).length s.current_problems.length with
    | some r, some m =>
      some (⟨sortProblems problems, s.refresh⟩,
        (if s.current_problems.length = 0 then [Cmd.clear_lines allLinesMask Colour.BLACK] else [])
          ++ r ++ (if 0 < m then [Cmd.clear_lines m Colour.BLACK] else []))
    | _, _ => none

/-- One backend record, with the fields `Fetcher._skip` and `Fetcher.parse`
read via `dict.get`; `none` is a missing key. -/
structure Record where
  state_type : Option String := none
  attempts : Option String := none
  status : Option String := none
  host_display_name : Option String := none
  service_display_name : Option String := none

/-- Python `d.get('state_type', '')`. -/
def Record.stateType (d : Record) : String := d.state_type.getD ""

/-- Python `d.get('attempts', '1/1')`. -/
def Record.attemptsStr (d : Record) : String := d.attempts.getD "1/1"

/-- Splitting a character list at every occurrence of a separator, keeping
empty components (the semantics of Python `str.split` with an explicit
separator). -/
def splitChar (sep : Char) : List Char → List (List Char)
  | [] => [[]]
  | c :: cs =>
    match splitChar sep cs with
    | [] => [[c]]
    | r :: rs => if c = sep then [] :: r :: rs else (c :: r) :: rs

/-- Python `s.split(sep)` for a one-character separator. -/
def pySplit (s : String) (sep : Char) : List String :=
  (splitChar sep s.data).map (fun cs => String.mk cs)

/-- Accumulating decimal-digit parser: `none` at the first non-digit. -/
def digitsAux : Nat → List Char → Option Nat
  | acc, [] => some acc
  | acc, c :: cs =>
    if '0' ≤ c ∧ c ≤ '9' then digitsAux (acc * 10 + (c.toNat - '0'.toNat)) cs
    else none

/-- Python `int(str)`: optional surrounding spaces, optional sign, then at
least one decimal digit; anything else raises `ValueError` (`none`). -/
def pyInt (s : String) : Option Int :=
  match ((s.data.dropWhile (fun c => c = ' ')).reverse.dropWhile
      (fun c => c = ' ')).reverse with
  | [] => none
  | '-' :: rest =>
    match rest with
    | [] => none
    | _ :: _ => (digitsAux 0 rest).map (fun n => -(n : Int))
  | '+' :: rest =>
    match rest with
    | [] => none
    | _ :: _ => (digitsAux 0 rest).map (fun n => (n : Int))
  | cs => (digitsAux 0 cs).map (fun n => (n : Int))

/-- Method `Fetcher._skip` (lines 166-179): a SOFT record on its first of more than
one attempts is skipped.  `int()` on a non-numeric component and the 2-tuple
unpacking of `split('/')` raise `ValueError`, modelled as `none`; note the
Python `and` short-circuit: the max-attempts component is only parsed when
the first component equals 1. -/
def skipRecord (d : Record) : Option Bool :=
  if d.stateType = "SOFT" then
    match pySplit d.attemptsStr '/' with
    | [a, m] =>
      match pyInt a with
      | none => none
      | some na =>
        if na = 1 then
          match pyInt m with
          | none => none
          | some nm => some (decide (1 < nm))
        else
          some false
    | _ => none
  else
    some false

/-- Schema `RawData`: the logical schema of backend data, `host_status` and
`service_status` record sequences. -/
structure RawData where
  host_status : List Record := []
  service_status : List Record := []

/-- How `Fetcher.parse` turns a host record into a `Problem`:
`Problem(status, "[host]")` with `UNKNOWN` defaults for missing fields. -/
def hostProblem (d : Record) : Problem :=
  ⟨d.status.getD "UNKNOWN", "[" ++ d.host_display_name.getD "UNKNOWN" ++ "]"⟩

/-- How `Fetcher.parse` turns a service record into a `Problem`:
`Problem(status, "[host] service")` with `UNKNOWN` defaults. -/
def serviceProblem (d : Record) : Problem :=
  ⟨d.status.getD "UNKNOWN",
   "[" ++ d.host_display_name.getD "UNKNOWN" ++ "] " ++
     d.service_display_name.getD "UNKNOWN"⟩

/-- One section of `Fetcher.parse`: keep the non-skipped records' problems in
order; a raising `_skip` aborts the whole parse (`none`). -/
def parseSection (mk : Record → Problem) : List Record → Option (List Problem)
  | [] => some []
  | d :: rest =>
    match skipRecord d with
    | none => none
    | some true => parseSection mk rest
    | some false => (parseSection mk rest).map (fun ps => mk d :: ps)

/-- Method `Fetcher.parse` (lines 181-195): host problems then service problems,
with the same `_skip` filter applied to both. -/
def parse (data : RawData) : Option (List Problem) :=
  match parseSection hostProblem data.host_status,
        parseSection serviceProblem data.service_status with
  | some hs, some ss => some (hs ++ ss)
  | _, _ => none

/-- Function `wait_for_lcd_attach` (lines 379-390), over a list of attach-attempt
outcomes (`true` = `lcd.attach()` succeeded): returns the number of failed
attempts before the first success, `none` if the given outcome list holds no
success (the Python loop would still be retrying). -/
def wait_for_lcd_attach : List Bool → Option Nat
  | [] => none
  | true :: _ => some 0
  | false :: rest => (wait_for_lcd_attach rest).map Nat.succ

/-- Whether a device command draws on display line `i` (the icon slot at
`i*8` or the text of 1-based line `i+1`); clears never draw. -/
def touchesLine : Cmd → Nat → Bool
  | Cmd.display_icon pos _, i => pos == i * 8
  | Cmd.display_text line _ _ _ _, i => line == i + 1
  | Cmd.clear_lines _ _, _ => false

/-- Whether a command is a line-clear command. -/
def isClearCmd : Cmd → Bool
  | Cmd.clear_lines _ _ => true
  | _ => false

/-- A stable sort by an integer rank with rank values below `n`: the items of
rank 0 in source order, then the items of rank 1 in source order, and so on;
items whose rank is not below `n` are dropped. -/
def rankSort (n : Nat) (rank : String → Nat) (ps : List Problem) : List Problem :=
  (List.range n).flatMap fun r => ps.filter fun p => decide (rank p.state = r)

/-- The severity rank realised by the code: the position of the state name in
the `states` insertion order (DOWN 0, CRITICAL 1, WARNING 2, UNREACHABLE 3,
UNKNOWN 4, UP 5, OK 6), with 7 for unknown names. -/
def severityRank (st : String) : Nat :=
  if st = "DOWN" then 0
  else if st = "CRITICAL" then 1
  else if st = "WARNING" then 2
  else if st = "UNREACHABLE" then 3
  else if st = "UNKNOWN" then 4
  else if st = "UP" then 5
  else if st = "OK" then 6
  else 7

/-- The severity rank as the spec words it: the DOWN/UNREACHABLE class most
severe, then the WARNING/CRITICAL class, then UNKNOWN, then UP/OK.  Stated
from the spec's words for comparison with the code's order. -/
def specSeverityRank (st : String) : Nat :=
  if st = "DOWN" ∨ st = "UNREACHABLE" then 0
  else if st = "WARNING" ∨ st = "CRITICAL" then 1
  else if st = "UNKNOWN" then 2
  else 3

/-- Seven distinct DOWN problems. -/
def sevenDown : List Problem :=
  [⟨"DOWN", "a"⟩, ⟨"DOWN", "b"⟩, ⟨"DOWN", "c"⟩, ⟨"DOWN", "d"⟩,
   ⟨"DOWN", "e"⟩, ⟨"DOWN", "f"⟩, ⟨"DOWN", "g"⟩]

/-! ## Helper lemmas -/

lemma mem_sortProblems {p : Problem} {ps : List Problem} :
    p ∈ sortProblems ps ↔ p ∈ ps ∧ p.state ∈ stateNames := by
  simp only [sortProblems, stateNames, List.mem_flatMap, List.mem_filter, List.mem_map,
    decide_eq_true_eq]
  constructor
  · rintro ⟨st, hst, hp, hs⟩
    exact ⟨hp, st, hst, hs.symm⟩
  · rintro ⟨hp, st, hst, hs⟩
    exact ⟨st, hst, hp, hs.symm⟩


lemma statesLookup_isSome {st : String} (h : st ∈ stateNames) :
    (statesLookup st).isSome := by
  simp only [stateNames, List.mem_map] at h
  obtain ⟨e, he, hs⟩ := h
  have hfind : (states.find? (fun x => x.1 = st)).isSome := by
    rw [List.find?_isSome]
    exact ⟨e, he, by simp [hs]⟩
  obtain ⟨x, hx⟩ := Option.isSome_iff_exists.mp hfind
  simp [statesLookup, hx]

lemma renderLoop_isSome {l : List Problem} (cur : List Problem)
    (h : ∀ p ∈ l, (statesLookup p.state).isSome) (i : Nat) :
    (renderLoop cur i l).isSome := by
  induction l generalizing i with
  | nil => simp [renderLoop]
  | cons p rest ih =>
    have htail := ih (fun q hq => h q (List.mem_cons_of_mem _ hq)) (i + 1)
    obtain ⟨tail, htl⟩ := Option.isSome_iff_exists.mp htail
    obtain ⟨st, hst⟩ := Option.isSome_iff_exists.mp (h p (List.mem_cons_self _ _))
    rw [renderLoop, htl]
    by_cases hc : cur[i]? = some p
    · simp [hc]
    · simp [hc, display_problem, hst]

lemma renderLoop_all_eq {cur : List Problem} {l : List Problem} {i : Nat}
    (h : ∀ j, j < l.length → cur[i + j]? = l[j]?) :
    renderLoop cur i l = some [] := by
  induction l generalizing i with
  | nil => simp [renderLoop]
  | cons p rest ih =>
    have h0 : cur[i]? = some p := by
      have := h 0 (by simp)
      simpa using this
    have hrest : renderLoop cur (i + 1) rest = some [] := by
      apply ih
      intro j hj
      have := h (j + 1) (by simpa using Nat.succ_lt_succ hj)
      simpa [Nat.add_assoc, Nat.add_comm 1 j] using this
    rw [renderLoop, hrest]
    simp [h0]

lemma renderLoop_mem {cur l : List Problem} {i : Nat} {cmds : List Cmd} {c : Cmd}
    (h : renderLoop cur i l = some cmds) (hc : c ∈ cmds) :
    ∃ j p st, l[j]? = some p ∧ cur[i + j]? ≠ some p ∧
      statesLookup p.state = some st ∧
      (c = Cmd.display_icon ((i + j) * 8) st.image ∨
       c = Cmd.display_text (i + j + 1) p.descr true TextAlignment.LEFT st.colour) := by
  induction l generalizing i cmds with
  | nil =>
    simp only [renderLoop, Option.some.injEq] at h
    subst h
    simp at hc
  | cons p rest ih =>
    rw [renderLoop] at h
    split at h
    · exact Option.noConfusion h
    case _ tail htl =>
      split at h
      case isTrue hcur =>
        injection h with h; subst h
        obtain ⟨j, q, st, h1, h2, h3, h4⟩ := ih htl hc
        exact ⟨j + 1, q, st, by simpa using h1, by
          simpa [Nat.add_assoc, Nat.add_comm 1 j] using h2, h3, by
          simpa [Nat.add_assoc, Nat.add_comm 1 j] using h4⟩
      case isFalse hcur =>
        split at h
        · exact Option.noConfusion h
        case _ dc hdp =>
          injection h with h; subst h
          rcases List.mem_append.mp hc with hc1 | hc2
          · obtain ⟨st, hst, hd⟩ := Option.map_eq_some'.mp hdp
            subst hd
            refine ⟨0, p, st, by simp, by simpa using hcur, hst, ?_⟩
            simpa using hc1
          · obtain ⟨j, q, st, h1, h2, h3, h4⟩ := ih htl hc2
            exact ⟨j + 1, q, st, by simpa using h1, by
              simpa [Nat.add_assoc, Nat.add_comm 1 j] using h2, h3, by
              simpa [Nat.add_assoc, Nat.add_comm 1 j] using h4⟩

lemma renderLoop_renders {cur l : List Problem} {i j : Nat} {cmds : List Cmd} {p : Problem}
    (h : renderLoop cur i l = some cmds) (hj : l[j]? = some p)
    (hne : cur[i + j]? ≠ some p) :
    ∃ st, statesLookup p.state = some st ∧
      Cmd.display_icon ((i + j) * 8) st.image ∈ cmds := by
  induction l generalizing i j cmds with
  | nil => simp at hj
  | cons q rest ih =>
    rw [renderLoop] at h
    split at h
    · exact Option.noConfusion h
    case _ tail htl =>
      cases j with
      | zero =>
        have hq : q = p := by simpa using hj
        subst hq
        have hcur : ¬ cur[i]? = some q := by simpa using hne
        rw [if_neg hcur] at h
        split at h
        · exact Option.noConfusion h
        case _ dc hdp =>
          injection h with h; subst h
          obtain ⟨st, hst, hd⟩ := Option.map_eq_some'.mp hdp
          subst hd
          exact ⟨st, hst, by simp⟩
      | succ j' =>
        have hj' : rest[j']? = some p := by simpa using hj
        have hne' : cur[i + 1 + j']? ≠ some p := by
          simpa [Nat.add_assoc, Nat.add_comm 1 j'] using hne
        obtain ⟨st, hst, hmem⟩ := ih htl hj' hne'
        refine ⟨st, hst, ?_⟩
        have harith : i + 1 + j' = i + (j' + 1) := by omega
        rw [harith] at hmem
        split at h
        · injection h with h; subst h
          exact hmem
        · split at h
          · exact Option.noConfusion h
          case _ dc hdp =>
            injection h with h; subst h
            exact List.mem_append_right _ hmem

lemma clearFold_isSome {ixs : List Nat} (h : ∀ i ∈ ixs, i < 6) (acc : Nat) :
    (ixs.foldlM (fun acc i => lcdLines[i]?.map (fun l => acc ||| l)) acc).isSome := by
  induction ixs generalizing acc with
  | nil => simp
  | cons x xs ih =>
    have hx : x < 6 := h x (List.mem_cons_self _ _)
    have hlen : x < lcdLines.length := by simpa [lcdLines] using hx
    have hl : lcdLines[x]? = some lcdLines[x] := List.getElem?_eq_getElem hlen
    rw [List.foldlM_cons, hl]
    simpa using ih (fun i hi => h i (List.mem_cons_of_mem _ hi)) (acc ||| lcdLines[x])

lemma clearFold_eq_none {ixs : List Nat} (h : ∃ i ∈ ixs, 6 ≤ i) (acc : Nat) :
    ixs.foldlM (fun acc i => lcdLines[i]?.map (fun l => acc ||| l)) acc = none := by
  induction ixs generalizing acc with
  | nil => simp at h
  | cons x xs ih =>
    rw [List.foldlM_cons]
    by_cases hx : 6 ≤ x
    · have : lcdLines[x]? = none := by
        rw [List.getElem?_eq_none]
        simpa [lcdLines] using hx
      simp [this]
    · obtain ⟨i, hi, h6⟩ := h
      have hixs : i ∈ xs := by
        rcases List.mem_cons.mp hi with rfl | hm
        · omega
        · exact hm
      rcases hgl : lcdLines[x]? with _ | l
      · simp [hgl]
      · simp only [hgl, Option.map_some', Option.bind_some]
        exact ih ⟨i, hixs, h6⟩ _

lemma clearMask_isSome {newLen curLen : Nat} (h : curLen ≤ 6) :
    (clearMask newLen curLen).isSome := by
  apply clearFold_isSome
  intro i hi
  rw [List.mem_range'_1] at hi
  omega

lemma clearMask_empty (n : Nat) : clearMask n n = some 0 := by
  simp [clearMask]

lemma clearMask_eq_none {newLen curLen : Nat} (h6 : 6 < curLen) (hlt : newLen < curLen) :
    clearMask newLen curLen = none := by
  apply clearFold_eq_none
  refine ⟨curLen - 1, ?_, by omega⟩
  rw [List.mem_range'_1]
  omega

/-- Inversion of a successful non-empty `display_problems` call into its
sorting, redraw and clear components. -/
lemma display_problems_some_elim {s : Sync} {ps : List Problem} {s' : Sync} {cmds : List Cmd}
    (hne : ps.length ≠ 0) (h : display_problems s ps = some (s', cmds)) :
    ∃ r m, renderLoop s.current_problems 0 (sortProblems ps) = some r ∧
      clearMask (sortProblems ps).length s.current_problems.length = some m ∧
      s' = ⟨sortProblems ps, s.refresh⟩ ∧
      cmds = (if s.current_problems.length = 0
          then [Cmd.clear_lines allLinesMask Colour.BLACK] else [])
        ++ r ++ (if 0 < m then [Cmd.clear_lines m Colour.BLACK] else []) := by
  rw [display_problems, if_neg hne] at h
  split at h
  case _ r m hr hm =>
    injection h with h
    injection h with h1 h2
    exact ⟨r, m, hr, hm, h1.symm, h2.symm⟩
  case _ hmiss =>
    exact Option.noConfusion h

lemma severityRank_cases (x : String) :
    (severityRank x = 0 ↔ x = "DOWN") ∧ (severityRank x = 1 ↔ x = "CRITICAL") ∧
    (severityRank x = 2 ↔ x = "WARNING") ∧ (severityRank x = 3 ↔ x = "UNREACHABLE") ∧
    (severityRank x = 4 ↔ x = "UNKNOWN") ∧ (severityRank x = 5 ↔ x = "UP") ∧
    (severityRank x = 6 ↔ x = "OK") := by
  unfold severityRank
  split_ifs <;> simp_all

lemma sortProblems_eq_rankSort (ps : List Problem) :
    sortProblems ps = rankSort 7 severityRank ps := by
  have hr : List.range 7 = [0, 1, 2, 3, 4, 5, 6] := by decide
  rw [rankSort, hr, sortProblems, states]
  simp only [List.flatMap_cons, List.flatMap_nil, List.append_nil]
  congr 1
  · exact List.filter_congr fun p _ =>
      decide_eq_decide.mpr (severityRank_cases p.state).1.symm
  congr 1
  · exact List.filter_congr fun p _ =>
      decide_eq_decide.mpr (severityRank_cases p.state).2.1.symm
  congr 1
  · exact List.filter_congr fun p _ =>
      decide_eq_decide.mpr (severityRank_cases p.state).2.2.1.symm
  congr 1
  · exact List.filter_congr fun p _ =>
      decide_eq_decide.mpr (severityRank_cases p.state).2.2.2.1.symm
  congr 1
  · exact List.filter_congr fun p _ =>
      decide_eq_decide.mpr (severityRank_cases p.state).2.2.2.2.1.symm
  congr 1
  · exact List.filter_congr fun p _ =>
      decide_eq_decide.mpr (severityRank_cases p.state).2.2.2.2.2.1.symm
  · exact List.filter_congr fun p _ =>
      decide_eq_decide.mpr (severityRank_cases p.state).2.2.2.2.2.2.symm

/-! ## Claim theorems -/

/-- C1 counterexample: for the input `[UNREACHABLE "a", CRITICAL "b"]` the
line order rendered by `display_problems` (its resulting RenderState) is NOT
the stable sort by the spec's severity ranks, under which UNREACHABLE (rank 0,
DOWN-class) would precede CRITICAL (rank 1, WARNING-class): the code renders
CRITICAL first. -/
theorem C1_counterexample :
    (display_problems attachSync [⟨"UNREACHABLE", "a"⟩, ⟨"CRITICAL", "b"⟩]).map
        (fun o => o.1.current_problems) ≠
      some (rankSort 4 specSeverityRank [⟨"UNREACHABLE", "a"⟩, ⟨"CRITICAL", "b"⟩]) := by
  decide

/-- C1 (amended): for every non-empty input sequence, the line order rendered
by `display_problems` (its resulting RenderState, index-aligned to display
lines) equals the stable sort of the input by the code's severity rank, with
seven singleton rank classes in the order DOWN, CRITICAL, WARNING,
UNREACHABLE, UNKNOWN, UP, OK; problems of equal rank keep the source order,
and problems with a state outside the table are dropped. -/
theorem C1_theorem (s : Sync) (ps : List Problem) (s' : Sync) (cmds : List Cmd)
    (hne : ps ≠ []) (h : display_problems s ps = some (s', cmds)) :
    s'.current_problems = rankSort 7 severityRank ps := by
  have hne' : ps.length ≠ 0 := by simpa [List.length_eq_zero] using hne
  obtain ⟨r, m, _, _, hs', _⟩ := display_problems_some_elim hne' h
  rw [hs']
  exact sortProblems_eq_rankSort ps

/-- Witness for C1: the amended theorem applied at a concrete two-problem
input from the freshly attached state. -/
theorem C1_witness :
    Sync.current_problems ⟨[⟨"CRITICAL", "b"⟩, ⟨"UNREACHABLE", "a"⟩], true⟩ =
      rankSort 7 severityRank [⟨"UNREACHABLE", "a"⟩, ⟨"CRITICAL", "b"⟩] :=
  C1_theorem attachSync [⟨"UNREACHABLE", "a"⟩, ⟨"CRITICAL", "b"⟩]
    ⟨[⟨"CRITICAL", "b"⟩, ⟨"UNREACHABLE", "a"⟩], true⟩ _ (by decide) rfl

/-- C2: evaluating the code at the failing input.  Feeding seven problems to
`display_problems` from the freshly attached state succeeds and stores all
seven in the RenderState — there is no truncation to the 6 hardware lines, so
the claimed invariant `length ≤ 6` fails. -/
theorem C2_theorem :
    (display_problems attachSync sevenDown).map
      (fun o => o.1.current_problems.length) = some 7 := by
  decide

/-- C6: from the freshly attached state (empty RenderState, first reconcile
since attach), `display_problems []` emits exactly the one "ALL UP" splash
sequence, and an immediately following `display_problems []` emits no device
command at all. -/
theorem C6_theorem :
    display_problems attachSync [] = some (⟨[], false⟩, display_all_up) ∧
    display_problems ⟨[], false⟩ [] = some (⟨[], false⟩, []) :=
  ⟨rfl, rfl⟩

/-- C9: if a `display_problems` call leaves more than 6 problems stored in
the RenderState, a subsequent call whose sorted problem list is shorter fails
(`none`, the `IndexError` raised by `self.lines[i]` while accumulating the
clear mask) instead of clearing the stale lines. -/
theorem C9_theorem (s0 : Sync) (ps0 : List Problem) (s1 : Sync) (c1 : List Cmd)
    (ps : List Problem)
    (_h0 : display_problems s0 ps0 = some (s1, c1))
    (h1 : 6 < s1.current_problems.length) (h2 : ps ≠ [])
    (h3 : (sortProblems ps).length < s1.current_problems.length) :
    display_problems s1 ps = none := by
  have hne : ps.length ≠ 0 := by simpa [List.length_eq_zero] using h2
  rw [display_problems, if_neg hne]
  cases hrl : renderLoop s1.current_problems 0 (sortProblems ps) with
  | none => rw [clearMask_eq_none h1 h3]
  | some r => rw [clearMask_eq_none h1 h3]

/-- Witness for C9: seven DOWN problems leave a 7-element RenderState; the
next call with a single problem raises. -/
theorem C9_witness :
    display_problems ⟨sevenDown, true⟩ [⟨"DOWN", "a"⟩] = none :=
  C9_theorem attachSync sevenDown ⟨sevenDown, true⟩ _ [⟨"DOWN", "a"⟩]
    rfl (by decide) (by decide) (by decide)

/-- C4 counterexample: for `ps = [Problem "BOGUS" "x"]` (a non-empty sequence
whose only state is outside the table), the second identical call still emits
the splash-clearing `clear_lines` command, so idempotence fails for this
sequence. -/
theorem C4_counterexample :
    ((display_problems attachSync [⟨"BOGUS", "x"⟩]).bind fun o =>
        (display_problems o.1 [⟨"BOGUS", "x"⟩]).map fun o2 => o2.2) =
      some [Cmd.clear_lines allLinesMask Colour.BLACK] ∧
    ([Cmd.clear_lines allLinesMask Colour.BLACK] : List Cmd) ≠ [] := by
  exact ⟨rfl, by decide⟩

/-- C4 (amended): calling `display_problems` twice with the same problem
sequence emits no command on the second call — and leaves the state
unchanged — provided the sequence is empty or at least one of its problems
has a state in the table (so its sorted form is non-empty).  A non-empty
sequence of only unknown states re-emits the splash-clearing clear command on
every call. -/
theorem C4_theorem (s : Sync) (ps : List Problem) (s' : Sync) (cmds : List Cmd)
    (hok : ps = [] ∨ sortProblems ps ≠ [])
    (h : display_problems s ps = some (s', cmds)) :
    display_problems s' ps = some (s', []) := by
  rcases hok with rfl | hsne
  · rw [display_problems] at h
    simp only [List.length_nil, reduceIte] at h
    split at h
    case isTrue hcond =>
      injection h with h
      have hs' : s' = ⟨[], false⟩ := (congrArg Prod.fst h).symm
      subst hs'
      rfl
    case isFalse hcond =>
      injection h with h
      have hs' : s' = s := (congrArg Prod.fst h).symm
      subst hs'
      rw [display_problems]
      simp only [List.length_nil, reduceIte]
      rw [if_neg hcond]
  · have hne : ps.length ≠ 0 := by
      intro h0
      rw [List.length_eq_zero] at h0
      subst h0
      exact hsne rfl
    obtain ⟨r, m, hr, hm, hs', hcmds⟩ := display_problems_some_elim hne h
    subst hs'
    rw [display_problems, if_neg hne]
    have hrl : renderLoop (Sync.current_problems ⟨sortProblems ps, s.refresh⟩) 0
        (sortProblems ps) = some [] := by
      apply renderLoop_all_eq
      intro j hj
      simp
    have hcm : clearMask (sortProblems ps).length
        (Sync.current_problems ⟨sortProblems ps, s.refresh⟩).length = some 0 :=
      clearMask_empty _
    rw [hrl, hcm]
    dsimp only
    have hlen : (sortProblems ps).length ≠ 0 := by
      simpa [List.length_eq_zero] using hsne
    rw [if_neg hlen, if_neg (lt_irrefl 0)]
    simp

/-- Witness for C4: a single DOWN problem rendered twice from the freshly
attached state; the second call emits nothing. -/
theorem C4_witness :
    display_problems ⟨[⟨"DOWN", "d"⟩], true⟩ [⟨"DOWN", "d"⟩] =
      some (⟨[⟨"DOWN", "d"⟩], true⟩, []) :=
  C4_theorem attachSync [⟨"DOWN", "d"⟩] ⟨[⟨"DOWN", "d"⟩], true⟩ _
    (Or.inr (by decide)) rfl

lemma lcdLines_getElem {i : Nat} (hi : i < 6) : lcdLines[i]? = some (2 ^ i) := by
  interval_cases i <;> rfl

lemma clearFold_testBit {ixs : List Nat} (hix : ∀ i ∈ ixs, i < 6) (acc res : Nat)
    (h : ixs.foldlM (fun acc i => lcdLines[i]?.map (fun l => acc ||| l)) acc = some res)
    (j : Nat) :
    res.testBit j = (acc.testBit j || decide (j ∈ ixs)) := by
  induction ixs generalizing acc with
  | nil =>
    have hres : acc = res := by simpa using h
    subst hres
    simp
  | cons x xs ih =>
    rw [List.foldlM_cons, lcdLines_getElem (hix x (List.mem_cons_self _ _))] at h
    simp only [Option.map_some', Option.some_bind] at h
    have hrec := ih (fun i hi => hix i (List.mem_cons_of_mem _ hi)) (acc ||| 2 ^ x) h
    rw [hrec, Nat.testBit_or, Nat.testBit_two_pow]
    by_cases hjx : j = x
    · subst hjx
      simp [List.mem_cons]
    · have hx : decide (x = j) = false := by
        simp [Ne.symm hjx]
      simp [List.mem_cons, hjx, hx]

lemma clearMask_testBit {newLen curLen m : Nat}
    (h : clearMask newLen curLen = some m) (j : Nat) :
    m.testBit j = decide (newLen ≤ j ∧ j < curLen) := by
  have hix : ∀ i ∈ List.range' newLen (curLen - newLen), i < 6 := by
    by_contra hcon
    push_neg at hcon
    obtain ⟨i, hi, h6⟩ := hcon
    unfold clearMask at h
    rw [clearFold_eq_none ⟨i, hi, h6⟩ 0] at h
    exact Option.noConfusion h
  unfold clearMask at h
  have hbit := clearFold_testBit hix 0 m h j
  rw [hbit]
  simp only [Nat.zero_testBit, Bool.false_or]
  rw [decide_eq_decide, List.mem_range'_1]
  omega

/-- C5: in a non-empty reconcile, when the `i`-th problem of the sorted new
sequence structurally equals the `i`-th previously rendered problem
(`i < len(previous)`), no emitted command draws on line `i` (only changed
lines are redrawn); the command trace holds at most one clear-lines command;
and whenever previous problems occupy lines beyond the new length, the
trace's clear commands are exactly one accumulated clear-lines command whose
mask has precisely the bits of the stale line indices
`[len(ordered), len(previous))`. -/
theorem C5_theorem (s : Sync) (ps : List Problem) (s' : Sync) (cmds : List Cmd)
    (i : Nat) (c : Cmd)
    (h : display_problems s ps = some (s', cmds)) (hne : ps ≠ [])
    (hc : c ∈ cmds) (hi : i < s.current_problems.length)
    (heq : (sortProblems ps)[i]? = s.current_problems[i]?) :
    touchesLine c i = false ∧ (cmds.filter isClearCmd).length ≤ 1 ∧
    ((sortProblems ps).length < s.current_problems.length →
      ∃ msk, cmds.filter isClearCmd = [Cmd.clear_lines msk Colour.BLACK] ∧
        ∀ j, msk.testBit j =
          decide ((sortProblems ps).length ≤ j ∧ j < s.current_problems.length)) := by
  have hne' : ps.length ≠ 0 := by simpa [List.length_eq_zero] using hne
  obtain ⟨r, m, hr, hm, hs', hcmds⟩ := display_problems_some_elim hne' h
  have hlen0 : s.current_problems.length ≠ 0 := by omega
  rw [if_neg hlen0] at hcmds
  subst hcmds
  have hfr : r.filter isClearCmd = [] := by
    rw [List.filter_eq_nil_iff]
    intro a ha
    obtain ⟨j, p, st, hj, hcur, hlook, hshape⟩ := renderLoop_mem hr ha
    rcases hshape with rfl | rfl <;> simp [isClearCmd]
  have hfilter : (([] ++ r ++ (if 0 < m then [Cmd.clear_lines m Colour.BLACK] else [])).filter
      isClearCmd) = (if 0 < m then [Cmd.clear_lines m Colour.BLACK] else []) := by
    simp only [List.nil_append, List.filter_append, hfr]
    by_cases h0m : 0 < m
    · rw [if_pos h0m]
      simp [isClearCmd]
    · rw [if_neg h0m]
      simp
  refine ⟨?_, ?_, ?_⟩
  · simp only [List.nil_append] at hc
    rcases List.mem_append.mp hc with hcr | hccl
    · obtain ⟨j, p, st, hj, hcur, hlook, hshape⟩ := renderLoop_mem hr hcr
      simp only [Nat.zero_add] at hcur hshape
      have hji : j ≠ i := by
        intro hj_eq
        subst hj_eq
        rw [heq] at hj
        exact hcur hj
      rcases hshape with rfl | rfl
      · simp only [touchesLine, beq_eq_false_iff_ne, ne_eq]
        omega
      · simp only [touchesLine, beq_eq_false_iff_ne, ne_eq]
        omega
    · by_cases h0m : 0 < m
      · rw [if_pos h0m] at hccl
        have hcc : c = Cmd.clear_lines m Colour.BLACK := by simpa using hccl
        subst hcc
        rfl
      · rw [if_neg h0m] at hccl
        simp at hccl
  · rw [hfilter]
    by_cases h0m : 0 < m
    · rw [if_pos h0m]
      simp
    · rw [if_neg h0m]
      simp
  · intro hstale
    have hm0 : 0 < m := by
      rcases Nat.eq_zero_or_pos m with hz | hpos
      · exfalso
        have hbit := clearMask_testBit hm (sortProblems ps).length
        rw [hz, Nat.zero_testBit, eq_comm, decide_eq_false_iff_not] at hbit
        exact hbit ⟨Nat.le_refl _, hstale⟩
      · exact hpos
    refine ⟨m, ?_, fun j => clearMask_testBit hm j⟩
    rw [hfilter, if_pos hm0]

/-- Witness for C5: previous `[A, B, C]`, new `[A, D]`: line 0 (where the
sorted sequence agrees with the previous state) is untouched, and the one
emitted clear command's mask 4 covers exactly stale line 2. -/
theorem C5_witness :
    touchesLine (Cmd.display_icon 8 11) 0 = false ∧
    (([Cmd.display_icon 8 11, Cmd.display_text 2 "D" true TextAlignment.LEFT Colour.RED,
       Cmd.clear_lines 4 Colour.BLACK] : List Cmd).filter isClearCmd).length ≤ 1 ∧
    ((sortProblems [⟨"DOWN", "A"⟩, ⟨"DOWN", "D"⟩]).length <
        (Sync.mk [⟨"DOWN", "A"⟩, ⟨"DOWN", "B"⟩, ⟨"DOWN", "C"⟩] false).current_problems.length →
      ∃ msk, (([Cmd.display_icon 8 11,
          Cmd.display_text 2 "D" true TextAlignment.LEFT Colour.RED,
          Cmd.clear_lines 4 Colour.BLACK] : List Cmd).filter isClearCmd) =
            [Cmd.clear_lines msk Colour.BLACK] ∧
        ∀ j, msk.testBit j =
          decide ((sortProblems [⟨"DOWN", "A"⟩, ⟨"DOWN", "D"⟩]).length ≤ j ∧
            j < (Sync.mk [⟨"DOWN", "A"⟩, ⟨"DOWN", "B"⟩, ⟨"DOWN", "C"⟩]
              false).current_problems.length)) :=
  C5_theorem ⟨[⟨"DOWN", "A"⟩, ⟨"DOWN", "B"⟩, ⟨"DOWN", "C"⟩], false⟩
    [⟨"DOWN", "A"⟩, ⟨"DOWN", "D"⟩]
    ⟨[⟨"DOWN", "A"⟩, ⟨"DOWN", "D"⟩], false⟩
    [Cmd.display_icon 8 11, Cmd.display_text 2 "D" true TextAlignment.LEFT Colour.RED,
     Cmd.clear_lines 4 Colour.BLACK]
    0 (Cmd.display_icon 8 11)
    rfl (by decide) (by decide) (by decide) (by decide)

/-- C3: `_skip` (hence `parse`, which applies it identically to host and
service records of every backend) suppresses a record iff its state-type is
"SOFT" and its attempts string "n/max" has n = 1 and max > 1; concretely a
SOFT "1/3" record is excluded from the parsed sequence for both host and
service sections, while SOFT "2/3" and SOFT "1/1" are included. -/
theorem C3_theorem (d : Record) (a m : String) (na nm : Int)
    (hsplit : pySplit d.attemptsStr '/' = [a, m])
    (ha : pyInt a = some na) (hm : pyInt m = some nm) :
    (skipRecord d = some true ↔ d.stateType = "SOFT" ∧ na = 1 ∧ 1 < nm) ∧
    parse ⟨[{ state_type := some "SOFT", attempts := some "1/3" }],
           [{ state_type := some "SOFT", attempts := some "1/3" }]⟩ = some [] ∧
    parse ⟨[{ state_type := some "SOFT", attempts := some "2/3" }],
           [{ state_type := some "SOFT", attempts := some "2/3" }]⟩ =
      some [⟨"UNKNOWN", "[UNKNOWN]"⟩, ⟨"UNKNOWN", "[UNKNOWN] UNKNOWN"⟩] ∧
    parse ⟨[{ state_type := some "SOFT", attempts := some "1/1" }],
           [{ state_type := some "SOFT", attempts := some "1/1" }]⟩ =
      some [⟨"UNKNOWN", "[UNKNOWN]"⟩, ⟨"UNKNOWN", "[UNKNOWN] UNKNOWN"⟩] := by
  refine ⟨?_, rfl, rfl, rfl⟩
  rw [skipRecord]
  by_cases hst : d.stateType = "SOFT"
  · rw [if_pos hst, hsplit]
    dsimp only
    rw [ha]
    dsimp only
    by_cases h1 : na = 1
    · subst h1
      rw [if_pos rfl, hm]
      dsimp only
      constructor
      · intro hsk
        injection hsk with hsk
        exact ⟨hst, rfl, of_decide_eq_true hsk⟩
      · rintro ⟨-, -, hnm⟩
        simp [hnm]
    · rw [if_neg h1]
      constructor
      · intro hsk
        exact absurd (Option.some.inj hsk) (by simp)
      · rintro ⟨-, h1', -⟩
        exact absurd h1' h1
  · rw [if_neg hst]
    constructor
    · intro hsk
      exact absurd (Option.some.inj hsk) (by simp)
    · rintro ⟨hst', -, -⟩
      exact absurd hst' hst

/-- Witness for C3: the suppression iff evaluated at a concrete SOFT record
with attempts "1/3". -/
theorem C3_witness :
    (skipRecord { state_type := some "SOFT", attempts := some "1/3" } = some true ↔
      Record.stateType { state_type := some "SOFT", attempts := some "1/3" } = "SOFT" ∧
        (1 : Int) = 1 ∧ (1 : Int) < 3) ∧
    parse ⟨[{ state_type := some "SOFT", attempts := some "1/3" }],
           [{ state_type := some "SOFT", attempts := some "1/3" }]⟩ = some [] ∧
    parse ⟨[{ state_type := some "SOFT", attempts := some "2/3" }],
           [{ state_type := some "SOFT", attempts := some "2/3" }]⟩ =
      some [⟨"UNKNOWN", "[UNKNOWN]"⟩, ⟨"UNKNOWN", "[UNKNOWN] UNKNOWN"⟩] ∧
    parse ⟨[{ state_type := some "SOFT", attempts := some "1/1" }],
           [{ state_type := some "SOFT", attempts := some "1/1" }]⟩ =
      some [⟨"UNKNOWN", "[UNKNOWN]"⟩, ⟨"UNKNOWN", "[UNKNOWN] UNKNOWN"⟩] :=
  C3_theorem { state_type := some "SOFT", attempts := some "1/3" } "1" "3" 1 3
    rfl rfl rfl

lemma skipRecord_isSome {d : Record}
    (h : d.stateType = "SOFT" → ∃ a m na, pySplit d.attemptsStr '/' = [a, m] ∧
      pyInt a = some na ∧ (na = 1 → (pyInt m).isSome)) :
    (skipRecord d).isSome := by
  rw [skipRecord]
  by_cases hst : d.stateType = "SOFT"
  · rw [if_pos hst]
    obtain ⟨a, m, na, hsplit, ha, hm⟩ := h hst
    rw [hsplit]
    dsimp only
    rw [ha]
    dsimp only
    by_cases h1 : na = 1
    · subst h1
      rw [if_pos rfl]
      obtain ⟨nm, hnm⟩ := Option.isSome_iff_exists.mp (hm rfl)
      rw [hnm]
      rfl
    · rw [if_neg h1]
      rfl
  · rw [if_neg hst]
    rfl

lemma parseSection_isSome (mk : Record → Problem) {l : List Record}
    (h : ∀ d ∈ l, (skipRecord d).isSome) : (parseSection mk l).isSome := by
  induction l with
  | nil => rfl
  | cons d rest ih =>
    obtain ⟨b, hb⟩ := Option.isSome_iff_exists.mp (h d (List.mem_cons_self _ _))
    obtain ⟨qs, hqs⟩ :=
      Option.isSome_iff_exists.mp (ih (fun x hx => h x (List.mem_cons_of_mem _ hx)))
    rw [parseSection, hb]
    cases b
    · dsimp only
      rw [hqs]
      rfl
    · dsimp only
      rw [hqs]
      rfl

/-- C7 counterexample: `parse` is not total — a SOFT host record whose
attempts field "x/y" has a non-numeric first component makes `int()` raise
`ValueError` inside `_skip`, so `parse` fails (`none`) instead of degrading
to an UNKNOWN problem. -/
theorem C7_counterexample :
    parse ⟨[{ state_type := some "SOFT", attempts := some "x/y" }], []⟩ = none := rfl

/-- C7 (amended): `parse` returns a problem sequence for every input whose
SOFT records carry a well-formed attempts field (it splits on "/" into
exactly two components, the first parses as an integer, and the second parses
as an integer whenever the first equals 1); missing fields degrade to state
UNKNOWN and the placeholder description rather than raising.  A SOFT record
with a malformed attempts field makes `parse` raise `ValueError` instead. -/
theorem C7_theorem (data : RawData)
    (hwf : ∀ d ∈ data.host_status ++ data.service_status, d.stateType = "SOFT" →
      ∃ a m na, pySplit d.attemptsStr '/' = [a, m] ∧ pyInt a = some na ∧
        (na = 1 → (pyInt m).isSome)) :
    (parse data).isSome ∧
    parse ⟨[{}], [{}]⟩ =
      some [⟨"UNKNOWN", "[UNKNOWN]"⟩, ⟨"UNKNOWN", "[UNKNOWN] UNKNOWN"⟩] := by
  refine ⟨?_, rfl⟩
  have hh : (parseSection hostProblem data.host_status).isSome :=
    parseSection_isSome _ fun d hd =>
      skipRecord_isSome (hwf d (List.mem_append_left _ hd))
  have hs : (parseSection serviceProblem data.service_status).isSome :=
    parseSection_isSome _ fun d hd =>
      skipRecord_isSome (hwf d (List.mem_append_right _ hd))
  obtain ⟨hps, hh'⟩ := Option.isSome_iff_exists.mp hh
  obtain ⟨sps, hs'⟩ := Option.isSome_iff_exists.mp hs
  rw [parse, hh', hs']
  rfl

/-- Witness for C7: a host record with SOFT "2/3" attempts and one with all
fields missing parse successfully. -/
theorem C7_witness :
    (parse ⟨[{ state_type := some "SOFT", attempts := some "2/3" }], []⟩).isSome ∧
    parse ⟨[{}], [{}]⟩ =
      some [⟨"UNKNOWN", "[UNKNOWN]"⟩, ⟨"UNKNOWN", "[UNKNOWN] UNKNOWN"⟩] :=
  C7_theorem ⟨[{ state_type := some "SOFT", attempts := some "2/3" }], []⟩
    (by
      intro d hd hst
      have hd' : d = { state_type := some "SOFT", attempts := some "2/3" } := by
        simpa using hd
      subst hd'
      exact ⟨"2", "3", 2, rfl, rfl, by intro h2; exact absurd h2 (by decide)⟩)

lemma wait_attach_spec {outcomes : List Bool} {n : Nat}
    (h : wait_for_lcd_attach outcomes = some n) :
    outcomes[n]? = some true ∧ ∀ j, j < n → outcomes[j]? = some false := by
  induction outcomes generalizing n with
  | nil => exact Option.noConfusion h
  | cons b rest ih =>
    cases b with
    | true =>
      have hn : n = 0 := (Option.some.inj h).symm
      subst hn
      exact ⟨by simp, fun j hj => absurd hj (Nat.not_lt_zero j)⟩
    | false =>
      rw [wait_for_lcd_attach] at h
      rcases ho : wait_for_lcd_attach rest with _ | n'
      · rw [ho] at h
        exact Option.noConfusion h
      · rw [ho] at h
        have hn : n = n' + 1 := (Option.some.inj h).symm
        subst hn
        obtain ⟨h1, h2⟩ := ih ho
        refine ⟨by simpa using h1, ?_⟩
        intro j hj
        cases j with
        | zero => simp
        | succ j' => simpa using h2 j' (by omega)

/-- C8: the reattach loop returns at the first successful `attach()` attempt
(every earlier attempt having failed); `attach()` resets the RenderState to
empty; and the next non-empty reconcile after an attach redraws every
occupied line — some emitted command draws on each line of the sorted
sequence, none skipped as unchanged. -/
theorem C8_theorem (outcomes : List Bool) (n j : Nat)
    (ps : List Problem) (s' : Sync) (cmds : List Cmd) (i : Nat)
    (hw : wait_for_lcd_attach outcomes = some n) (hj : j < n)
    (hd : display_problems attachSync ps = some (s', cmds)) (hne : ps ≠ [])
    (hi : i < (sortProblems ps).length) :
    outcomes[n]? = some true ∧ outcomes[j]? = some false ∧
    attachSync.current_problems = [] ∧
    ∃ c ∈ cmds, touchesLine c i = true := by
  obtain ⟨hsucc, hfail⟩ := wait_attach_spec hw
  refine ⟨hsucc, hfail j hj, rfl, ?_⟩
  have hne' : ps.length ≠ 0 := by simpa [List.length_eq_zero] using hne
  obtain ⟨r, m, hr, hm, hs', hcmds⟩ := display_problems_some_elim hne' hd
  have hp : (sortProblems ps)[i]? = some ((sortProblems ps)[i]) :=
    List.getElem?_eq_getElem hi
  have hcur : (attachSync.current_problems)[0 + i]? ≠ some ((sortProblems ps)[i]) := by
    intro hmem
    simp [attachSync] at hmem
  obtain ⟨st, hst, hicon⟩ := renderLoop_renders hr hp hcur
  refine ⟨Cmd.display_icon ((0 + i) * 8) st.image, ?_, ?_⟩
  · subst hcmds
    exact List.mem_append_left _ (List.mem_append_right _ hicon)
  · simp [touchesLine]

/-- Witness for C8: two attach attempts (fail then success) followed by a
one-problem reconcile from the attached state. -/
theorem C8_witness :
    ([false, true] : List Bool)[1]? = some true ∧
    ([false, true] : List Bool)[0]? = some false ∧
    attachSync.current_problems = [] ∧
    ∃ c ∈ ([Cmd.clear_lines allLinesMask Colour.BLACK, Cmd.display_icon 0 11,
        Cmd.display_text 1 "d" true TextAlignment.LEFT Colour.RED] : List Cmd),
      touchesLine c 0 = true :=
  C8_theorem [false, true] 1 0 [⟨"DOWN", "d"⟩] ⟨[⟨"DOWN", "d"⟩], true⟩
    [Cmd.clear_lines allLinesMask Colour.BLACK, Cmd.display_icon 0 11,
     Cmd.display_text 1 "d" true TextAlignment.LEFT Colour.RED] 0
    rfl (by decide) rfl (by decide) (by decide)

/-- C10: a problem whose state is not one of the seven known state names is
silently discarded by `display_problems`: it never enters the sorted
sequence, it is absent from the resulting RenderState, and (whenever the
previous RenderState fits the 6-line table) the call still succeeds — no
error is raised on its account. -/
theorem C10_theorem (s : Sync) (ps : List Problem) (p : Problem)
    (hp : p ∈ ps) (hst : p.state ∉ stateNames)
    (hlen : s.current_problems.length ≤ 6) :
    p ∉ sortProblems ps ∧
    ∃ s' cmds, display_problems s ps = some (s', cmds) ∧
      p ∉ s'.current_problems := by
  have hnotin : p ∉ sortProblems ps := fun hmem => hst (mem_sortProblems.mp hmem).2
  refine ⟨hnotin, ?_⟩
  have hne : ps.length ≠ 0 := by
    intro h0
    rw [List.length_eq_zero] at h0
    subst h0
    simp at hp
  obtain ⟨r, hr⟩ := Option.isSome_iff_exists.mp
    (renderLoop_isSome s.current_problems
      (fun q hq => statesLookup_isSome (mem_sortProblems.mp hq).2) 0)
  obtain ⟨m, hm⟩ := Option.isSome_iff_exists.mp (clearMask_isSome hlen)
  refine ⟨⟨sortProblems ps, s.refresh⟩,
    (if s.current_problems.length = 0 then [Cmd.clear_lines allLinesMask Colour.BLACK] else [])
      ++ r ++ (if 0 < m then [Cmd.clear_lines m Colour.BLACK] else []), ?_, ?_⟩
  · rw [display_problems, if_neg hne, hr, hm]
  · simpa using hnotin

/-- Witness for C10: a BOGUS-state problem alongside a DOWN problem from the
freshly attached state. -/
theorem C10_witness :
    (⟨"BOGUS", "x"⟩ : Problem) ∉ sortProblems [⟨"BOGUS", "x"⟩, ⟨"DOWN", "d"⟩] ∧
    ∃ s' cmds,
      display_problems attachSync [⟨"BOGUS", "x"⟩, ⟨"DOWN", "d"⟩] = some (s', cmds) ∧
      (⟨"BOGUS", "x"⟩ : Problem) ∉ s'.current_problems :=
  C10_theorem attachSync [⟨"BOGUS", "x"⟩, ⟨"DOWN", "d"⟩] ⟨"BOGUS", "x"⟩
    (by decide) (by decide) (by decide)
